import Mathlib

/-
Verification of the buildbot scheduling core: the object state store
(master/buildbot/db/state.py), the debounce primitive
(master/buildbot/util/debounce.py), and the Nightly periodic trigger
engine (modelled from the specification, exercised by
master/buildbot/test/unit/schedulers/test_timed_Nightly.py).
-/

set_option linter.unusedVariables false

/-! ## JSON values

Python values handled by json.dumps/json.loads in state.py.  Python None
corresponds to Json.null (json.loads "null" returns None, and a default of
None is the very same object). -/

/-- JSON-serializable value, as stored by the object state store. -/
inductive Json where
  | null
  | bool (b : Bool)
  | num (n : Int)
  | str (s : String)
  | arr (xs : List Json)
  | obj (fields : List (String × Json))

/-- Python test `res is None` used by atomicCreateState. -/
def Json.isNull : Json → Bool
  | .null => true
  | _ => false

/-! ## Object state store: the object_state table (state.py)

A row of the object_state table.  The table has a unique constraint on
(objectid, name).  The stored blob is a string that either parses as JSON
(Cell.json v) or is corrupt (Cell.corrupt), in which case json.loads raises
ValueError and thdGetState re-raises TypeError. -/

/-- Stored value_json blob: valid JSON or corrupt text. -/
inductive Cell where
  | json (v : Json)
  | corrupt

/-- Row of the object_state table. -/
structure StateRow where
  objectid : Nat
  name : String
  value_json : Cell

/-- The object_state table contents. -/
abbrev ObjectStateTbl := List StateRow

/-- Row matching the unique key (objectid, name). -/
def stateKeyMatch (objectid : Nat) (name : String) (r : StateRow) : Bool :=
  r.objectid == objectid && r.name == name

/-- SELECT value_json FROM object_state WHERE objectid = ? AND name = ?. -/
def selectState (tbl : ObjectStateTbl) (objectid : Nat) (name : String) : Option Cell :=
  (tbl.find? (stateKeyMatch objectid name)).map (·.value_json)

/-- Errors surfaced by the state store.  notFound models the KeyError
raised when no row exists and no default was supplied (spec: NotFound);
decodeError models the TypeError raised when the stored blob is not valid
JSON (spec: DecodeError); integrityError models
sqlalchemy.exc.IntegrityError from a violated unique constraint. -/
inductive StateErr where
  | notFound
  | decodeError
  | integrityError
deriving DecidableEq

/-- INSERT INTO object_state VALUES (objectid, name, value_json); the
unique constraint on (objectid, name) makes the insert fail when a row
with that key already exists. -/
def insertState (tbl : ObjectStateTbl) (objectid : Nat) (name : String) (cell : Cell) :
    Except StateErr ObjectStateTbl :=
  if tbl.any (stateKeyMatch objectid name) then .error .integrityError
  else .ok (tbl ++ [⟨objectid, name, cell⟩])

/-- Interference by concurrent writers at the _test_timing_hook point:
each racing writer commits an insert-if-absent of a JSON value (a writer
whose insert hits the unique constraint rolls back and changes nothing). -/
def interfereState : ObjectStateTbl → List (Nat × String × Json) → ObjectStateTbl
  | tbl, [] => tbl
  | tbl, w :: ws =>
    interfereState
      (match insertState tbl w.1 w.2.1 (.json w.2.2) with
       | .ok t' => t'
       | .error _ => tbl)
      ws

/-- Well-formedness enforced by the unique constraint: no two rows share
the key (objectid, name). -/
def stateWf : ObjectStateTbl → Bool
  | [] => true
  | r :: rs => !(rs.any (stateKeyMatch r.objectid r.name)) && stateWf rs

/-- Translation of StateConnectorComponent.thdGetState.  default = none
models the Thunk sentinel (no default supplied); default = some d models a
supplied Python default d. -/
def thdGetState (tbl : ObjectStateTbl) (objectid : Nat) (name : String)
    (default : Option Json) : Except StateErr Json :=
  match selectState tbl objectid name with
  | none =>
    match default with
    | none => .error .notFound
    | some d => .ok d
  | some cell =>
    match cell with
    | .json v => .ok v
    | .corrupt => .error .decodeError

/-- Translation of StateConnectorComponent.getState: db.pool.do runs
thdGetState, which only executes SELECT statements, so the table is
returned unchanged. -/
def getState (tbl : ObjectStateTbl) (objectid : Nat) (name : String)
    (default : Option Json) : Except StateErr Json × ObjectStateTbl :=
  (thdGetState tbl objectid name default, tbl)

/-- Translation of StateConnectorComponent.atomicCreateState.  createVal
is the value produced by thd_create_callback; the returned Bool records
whether that callback was invoked (instrumentation needed to state the
claim, not a return value of the source).  intf is the interference
committed by racing writers at the _test_timing_hook point.  The source
reads the current value with default=None and treats a result of None
(Json.null) as absence; on IntegrityError it rolls back (its own failed
insert changed nothing) and re-reads with no default. -/
def atomicCreateState (tbl : ObjectStateTbl) (objectid : Nat) (name : String)
    (createVal : Json) (intf : List (Nat × String × Json)) :
    Except StateErr Json × Bool × ObjectStateTbl :=
  match thdGetState tbl objectid name (some .null) with
  | .error e => (.error e, false, tbl)
  | .ok res =>
    if res.isNull then
      let value := createVal
      let tbl1 := interfereState tbl intf
      match insertState tbl1 objectid name (.json value) with
      | .ok tbl2 => (.ok value, true, tbl2)
      | .error _ => (thdGetState tbl1 objectid name none, true, tbl1)
    else (.ok res, false, tbl)

/-! ## Object state store: the objects table (state.py)

The objects table maps (name, class_name) to a generated integer id, with
a unique constraint on (name, class_name).  Length normalization
(ensureLength/checkLength, from db/base.py which is outside the sources)
is the identity here. -/

/-- Row of the objects table. -/
structure ObjRow where
  id : Nat
  name : String
  class_name : String

/-- The objects table: rows plus the autoincrement primary-key counter. -/
structure ObjectsTbl where
  rows : List ObjRow
  nextId : Nat

/-- Row matching the unique key (name, class_name). -/
def objKeyMatch (name class_name : String) (r : ObjRow) : Bool :=
  r.name == name && r.class_name == class_name

/-- The select() closure of thdGetObjectId (raising _IdNotFoundError is
modelled as returning none). -/
def selectObj (db : ObjectsTbl) (name class_name : String) : Option Nat :=
  (db.rows.find? (objKeyMatch name class_name)).map (·.id)

/-- The insert() closure of thdGetObjectId: the unique constraint on
(name, class_name) makes the insert raise IntegrityError when a row with
that key exists; otherwise the row is inserted with a fresh generated id. -/
def insertObj (db : ObjectsTbl) (name class_name : String) :
    Except StateErr (Nat × ObjectsTbl) :=
  if db.rows.any (objKeyMatch name class_name) then .error .integrityError
  else .ok (db.nextId, ⟨db.rows ++ [⟨db.nextId, name, class_name⟩], db.nextId + 1⟩)

/-- Interference by concurrent id resolvers at the _test_timing_hook
point: each commits an insert-if-absent of its (name, class_name) pair. -/
def interfereObj : ObjectsTbl → List (String × String) → ObjectsTbl
  | db, [] => db
  | db, p :: ps =>
    interfereObj
      (match insertObj db p.1 p.2 with
       | .ok r => r.2
       | .error _ => db)
      ps

/-- Well-formedness enforced by the unique constraint: no two rows share
the key (name, class_name). -/
def objWf : List ObjRow → Bool
  | [] => true
  | r :: rs => !(rs.any (objKeyMatch r.name r.class_name)) && objWf rs

/-- Translation of StateConnectorComponent.thdGetObjectId: select, and if
absent insert, and if the insert hits the unique constraint roll back (the
failed insert changed nothing) and select again.  intf is the
interference committed by racing resolvers at the _test_timing_hook
point. -/
def thdGetObjectId (db : ObjectsTbl) (name class_name : String)
    (intf : List (String × String)) : Except StateErr (Nat × ObjectsTbl) :=
  match selectObj db name class_name with
  | some id => .ok (id, db)
  | none =>
    let db1 := interfereObj db intf
    match insertObj db1 name class_name with
    | .ok r => .ok r
    | .error _ =>
      match selectObj db1 name class_name with
      | some id => .ok (id, db1)
      | none => .error .notFound

/-! ## Debouncer (debounce.py)

State machine of the Debouncer class.  The wrapped zero-argument function
runs asynchronously: invoke() moves to PH_RUNNING and starts it; when the
resulting deferred completes the retry callback runs.  completeDeferreds
holds identifiers of the deferred objects handed out by stop(); nextWaiter
generates fresh identifiers (a model artifact standing for object
identity).  Observable effects of each transition are collected in
DebEffects: which complete-deferreds were called back, and whether the
wrapped function was (re)started. -/

/-- Debounce phases PH_IDLE, PH_WAITING, PH_RUNNING, PH_RUNNING_QUEUED. -/
inductive Phase where
  | idle
  | waiting
  | running
  | runningQueued
deriving DecidableEq

/-- Observable effects of one Debouncer transition. -/
structure DebEffects where
  fired : List Nat
  invoked : Bool
deriving DecidableEq

/-- No observable effect. -/
def noEffects : DebEffects := ⟨[], false⟩

/-- The Debouncer instance state (the __slots__ of the class, minus the
wrapped function and reactor accessor; the timer handle is modelled by
whether a timer is pending). -/
structure Debouncer where
  wait : Nat
  until_idle : Bool
  phase : Phase
  timer : Bool
  stopped : Bool
  completeDeferreds : List Nat
  nextWaiter : Nat
deriving DecidableEq

/-- Translation of Debouncer.__call__ (a trigger signal).  In PH_WAITING
with until_idle the source resets the pending timer's deadline to wait
seconds from now; the timer stays pending, so the state is unchanged in
this model, which does not track deadlines. -/
def Debouncer.call (d : Debouncer) : Debouncer × DebEffects :=
  if d.stopped then (d, noEffects)
  else
    match d.phase with
    | .idle => ({ d with timer := true, phase := .waiting }, noEffects)
    | .waiting => (d, noEffects)
    | .running => ({ d with phase := .runningQueued }, noEffects)
    | .runningQueued => (d, noEffects)

/-- Translation of Debouncer.invoke up to starting the wrapped function:
move to PH_RUNNING and start the function (the retry callback runs when it
completes). -/
def Debouncer.invoke (d : Debouncer) : Debouncer × DebEffects :=
  ({ d with phase := .running }, { fired := [], invoked := true })

/-- Translation of the retry callback inside Debouncer.invoke, run when
the wrapped function's deferred completes: note whether a run was queued,
fall back to PH_IDLE, then either re-invoke at once (queued and stopped),
or pop and fire every completeDeferred in order and, if queued, trigger
self() again. -/
def Debouncer.retry (d : Debouncer) : Debouncer × DebEffects :=
  let queued := d.phase == .runningQueued
  let d1 := { d with phase := .idle }
  if queued && d1.stopped then
    d1.invoke
  else
    let fired := d1.completeDeferreds
    let d2 := { d1 with completeDeferreds := [] }
    if queued then
      let r := d2.call
      (r.1, { fired := fired ++ r.2.fired, invoked := r.2.invoked })
    else (d2, { fired := fired, invoked := false })

/-- Translation of Debouncer.start. -/
def Debouncer.start (d : Debouncer) : Debouncer :=
  { d with stopped := false }

/-- Result of Debouncer.stop: an already-fired deferred (defer.succeed)
or a pending deferred with the given identifier. -/
inductive StopResult where
  | resolved
  | pending (w : Nat)
deriving DecidableEq

/-- Translation of Debouncer.stop: set stopped; if PH_WAITING cancel the
timer and invoke immediately (falling through with PH_RUNNING); if now in
PH_RUNNING or PH_RUNNING_QUEUED append and return a fresh deferred, else
return an already-fired one. -/
def Debouncer.stop (d : Debouncer) : Debouncer × StopResult × DebEffects :=
  let d1 := { d with stopped := true }
  let r :=
    if d1.phase == .waiting then Debouncer.invoke { d1 with timer := false }
    else (d1, noEffects)
  let d2 := r.1
  if d2.phase == .running || d2.phase == .runningQueued then
    let w := d2.nextWaiter
    ({ d2 with completeDeferreds := d2.completeDeferreds ++ [w], nextWaiter := w + 1 },
      .pending w, r.2)
  else (d2, .resolved, r.2)

/-- Events driving one Debouncer instance on its single scheduling
thread. -/
inductive DebEvent where
  | trigger
  | timerFire
  | actionComplete
  | stopEv
  | startEv
deriving DecidableEq

/-- One step of the Debouncer under an event.  A timer only fires when
pending in PH_WAITING, and the wrapped function only completes while it is
running (PH_RUNNING or PH_RUNNING_QUEUED); other pairings are no-ops. -/
def Debouncer.step (d : Debouncer) : DebEvent → Debouncer × DebEffects
  | .trigger => d.call
  | .timerFire =>
    if d.timer && d.phase == .waiting then Debouncer.invoke { d with timer := false }
    else (d, noEffects)
  | .actionComplete =>
    if d.phase == .running || d.phase == .runningQueued then d.retry
    else (d, noEffects)
  | .stopEv =>
    let r := d.stop
    (r.1, r.2.2)
  | .startEv => (d.start, noEffects)

/-! ## Periodic Trigger Engine (Nightly)

The production scheduler module (buildbot/schedulers/timed.py) is not
among the sources; only its unit tests are.  The definitions below are
modelled from the specification, with the behavior the tests pin down.
Times are seconds of local wall-clock time; day-of-month, month and
day-of-week constraints are omitted because no claim exercises them (every
claimed configuration restricts minutes only). -/

/-- Modelled from the spec: Nightly configuration, restricted to the
fields the claims exercise: the calendar spec lists for minute and hour
(none meaning any), the onlyIfChanged policy, and the branch filter
applied by gotChange. -/
structure NightlyConfig where
  minute : Option (List Nat)
  hour : Option (List Nat)
  onlyIfChanged : Bool
  branch : Option String

/-- Modelled from the spec: whether a whole-minute timestamp t (seconds)
matches the calendar spec constraints simultaneously (set semantics). -/
def calMatches (cfg : NightlyConfig) (t : Nat) : Bool :=
  (match cfg.minute with
   | none => true
   | some ms => ms.contains (t / 60 % 60)) &&
  (match cfg.hour with
   | none => true
   | some hs => hs.contains (t / 3600 % 24))

/-- Scan successive whole-minute timestamps for one matching the calendar
spec, with fuel bounding the search. -/
def searchFire (cfg : NightlyConfig) : Nat → Nat → Option Nat
  | 0, _ => none
  | fuel + 1, t => if calMatches cfg t then some t else searchFire cfg fuel (t + 60)

/-- Modelled from the spec: next-fire computation, the smallest time
strictly greater than now matching all constraints.  The scan starts at
the first whole minute strictly after now and covers a full day of
minutes, enough for any satisfiable minute/hour spec. -/
def nextFire (cfg : NightlyConfig) (now : Nat) : Option Nat :=
  searchFire cfg (24 * 60) ((now / 60 + 1) * 60)

/-- Modelled from the spec: an incoming change notification as delivered
to gotChange: arrival time, change number, branch, and the importance the
classification predicate assigned. -/
structure ChangeEvent where
  time : Nat
  number : Nat
  branch : Option String
  important : Bool

/-- Modelled from the spec: the payload of an emitted build request:
either a changes-based buildset (the pending changeids) or one built from
default sourcestamps. -/
inductive BuildPayload where
  | forChanges (changeids : List Nat)
  | withDefaults
deriving DecidableEq

/-- Modelled from the spec: the scheduler-visible state: the last_build
and last_only_if_changed bookmarks, the pending unclassified-changes
bookmark (changeid and importance, in arrival order), the is-first-build
flag computed at activation, and the emitted builds (time and payload). -/
structure NightlyState where
  lastBuild : Option Nat
  lastOnlyIfChanged : Option Bool
  pending : List (Nat × Bool)
  isFirstBuild : Bool
  builds : List (Nat × BuildPayload)
deriving DecidableEq

/-- Modelled from the spec: record a change classification in the pending
bookmark: a re-classified changeid keeps its place, a new one is appended
(arrival order). -/
def classifyChange (p : List (Nat × Bool)) (cid : Nat) (important : Bool) :
    List (Nat × Bool) :=
  if p.any (fun q => q.1 == cid) then
    p.map (fun q => if q.1 == cid then (cid, important) else q)
  else p ++ [(cid, important)]

/-- Modelled from the spec: gotChange: a change whose branch differs from
the configured branch is ignored entirely; otherwise its changeid and
importance are recorded in the pending bookmark. -/
def gotChange (cfg : NightlyConfig) (st : NightlyState) (ev : ChangeEvent) : NightlyState :=
  if ev.branch != cfg.branch then st
  else { st with pending := classifyChange st.pending ev.number ev.important }

/-- Modelled from the spec: the fire evaluation (startBuild) at time now.
The last_only_if_changed bookmark is read with default true (as the cited
tests pin down for the unset case) and re-persisted when the current
policy differs.  With onlyIfChanged, the build is skipped when the read
bookmark was true, no pending change is important, and this is not the
first build of a new scheduler.  Otherwise a build is emitted: a
changes-based one carrying the pending changeids in arrival order (and the
pending bookmark is cleared), or one from default sourcestamps when no
change is pending. -/
def startBuild (cfg : NightlyConfig) (st : NightlyState) (now : Nat) : NightlyState :=
  let classifications := st.pending
  let last := st.lastOnlyIfChanged.getD true
  let st :=
    if last != cfg.onlyIfChanged then { st with lastOnlyIfChanged := some cfg.onlyIfChanged }
    else st
  if cfg.onlyIfChanged && last && !(classifications.any (·.2)) && !st.isFirstBuild then
    st
  else
    let st := { st with isFirstBuild := false }
    let changeids := classifications.map (·.1)
    if !changeids.isEmpty then
      { st with builds := st.builds ++ [(now, .forChanges changeids)], pending := [] }
    else
      { st with builds := st.builds ++ [(now, .withDefaults)] }

/-- Modelled from the spec: one timer actuation at time t: persist
last_build = t, then run the fire evaluation. -/
def actuate (cfg : NightlyConfig) (st : NightlyState) (t : Nat) : NightlyState :=
  startBuild cfg { st with lastBuild := some t } t

/-- Modelled from the spec: activation: the scheduler is a new one when
the last_build bookmark is absent; when onlyIfChanged is not requested the
pending classifications are flushed.  Activation emits no build; the first
timer is scheduled for nextFire of the activation time. -/
def activate (cfg : NightlyConfig) (st : NightlyState) : NightlyState :=
  let st := { st with isFirstBuild := st.lastBuild.isNone }
  if !cfg.onlyIfChanged then { st with pending := [] } else st

/-- Modelled from the spec: the scheduling loop after activation: repeat
computing the next fire time after now, delivering the change
notifications that arrive before it, and actuating, until the next fire
time reaches the horizon (fuel bounds the recursion). -/
def runSched (cfg : NightlyConfig) (horizon : Nat) :
    Nat → NightlyState → Nat → List ChangeEvent → NightlyState
  | 0, st, _, _ => st
  | fuel + 1, st, now, evs =>
    match nextFire cfg now with
    | none => st
    | some t =>
      if horizon ≤ t then st
      else
        let pr := evs.partition (fun e => e.time < t)
        let st := pr.1.foldl (gotChange cfg) st
        let st := actuate cfg st t
        runSched cfg horizon fuel st t pr.2

/-- Modelled from the spec: a full simulated run: activate, then run the
scheduling loop from the origin to the horizon. -/
def simulate (cfg : NightlyConfig) (st : NightlyState) (origin horizon fuel : Nat)
    (evs : List ChangeEvent) : NightlyState :=
  runSched cfg horizon fuel (activate cfg st) origin evs

/-! ## Concrete scenarios from the test suite

The origin is the test reactor's start time advanced by time_offset
(ten days, hour-aligned); the loops run through the first thirty minutes
of simulated time. -/

/-- Hour-aligned origin of the simulated runs (ten days, as in the test
suite's time_offset with zero local offset). -/
def originT : Nat := 864000

/-- Configuration of test_iterations_simple: minute=[10,20,21,40,50,51],
no onlyIfChanged, no branch filter. -/
def cfgSimple : NightlyConfig :=
  { minute := some [10, 20, 21, 40, 50, 51], hour := none, onlyIfChanged := false,
    branch := none }

/-- Configuration of the do_test_iterations_onlyIfChanged tests:
minute=[5,25,45], onlyIfChanged, branch None. -/
def cfgOIC : NightlyConfig :=
  { minute := some [5, 25, 45], hour := none, onlyIfChanged := true, branch := none }

/-- Initial persisted state of a brand-new scheduler: no bookmarks, no
pending classification. -/
def stNew : NightlyState :=
  { lastBuild := none, lastOnlyIfChanged := none, pending := [], isFirstBuild := false,
    builds := [] }

/-- Initial persisted state of an existing scheduler: last_build recorded
long ago, last_only_if_changed as given. -/
def stExisting (loc : Option Bool) : NightlyState :=
  { lastBuild := some 86400, lastOnlyIfChanged := loc, pending := [], isFirstBuild := false,
    builds := [] }

/-- Initial state of test_iterations_simple: a pre-existing change
classification for change 19 and no bookmarks. -/
def stSimpleInit : NightlyState :=
  { lastBuild := none, lastOnlyIfChanged := none, pending := [(19, true)],
    isFirstBuild := false, builds := [] }

/-- The change feed of test_iterations_onlyIfChanged_mixed_changes: an
on-branch unimportant change, an off-branch important change, an on-branch
important change, an on-branch unimportant change, and an off-branch
important change, in that arrival order. -/
def mixedEvents : List ChangeEvent :=
  [⟨originT + 120, 500, none, false⟩,
   ⟨originT + 130, 501, some "offbranch", true⟩,
   ⟨originT + 1200, 502, none, true⟩,
   ⟨originT + 1201, 503, none, false⟩,
   ⟨originT + 1202, 504, some "offbranch", true⟩]

/-! ## Properties under verification -/

/-- An object_state table holding a single row whose stored value is the
JSON null. -/
def tblNull : ObjectStateTbl := [⟨1, "x", Cell.json Json.null⟩]

/-- A Debouncer in PH_RUNNING_QUEUED, not stopped, with one completion
waiter registered. -/
def dQueued : Debouncer :=
  { wait := 5, until_idle := false, phase := .runningQueued, timer := false,
    stopped := false, completeDeferreds := [0], nextWaiter := 1 }

/-- A Debouncer in PH_WAITING with a pending timer and no waiters. -/
def dWaiting : Debouncer :=
  { wait := 5, until_idle := false, phase := .waiting, timer := true,
    stopped := false, completeDeferreds := [], nextWaiter := 0 }

/-- A stopped Debouncer in PH_WAITING with a pending timer (start() was
not called after a stop in an earlier cycle). -/
def dStopped0 : Debouncer :=
  { wait := 5, until_idle := false, phase := .waiting, timer := true,
    stopped := true, completeDeferreds := [3], nextWaiter := 4 }

/-- Behavior of the retry callback from PH_RUNNING_QUEUED, as the code
implements it: when stopped, re-invoke at once without firing the
completion waiters; when not stopped, fire every waiter first and then
re-trigger through the normal path, which starts a fresh full-wait timer
and returns to PH_WAITING. -/
def retryQueuedSpec (d : Debouncer) : Prop :=
  (d.stopped = true →
    d.retry = ({ d with phase := .running }, { fired := [], invoked := true })) ∧
  (d.stopped = false →
    d.retry = ({ d with phase := .waiting, timer := true, completeDeferreds := [] },
      { fired := d.completeDeferreds, invoked := false }))

/-- Behavior of stop() from PH_WAITING: stopped is set, the timer is
cancelled, the wrapped function is invoked at once (PH_RUNNING), the
returned deferred is a fresh pending one appended to completeDeferreds,
and completing the forced run fires all registered waiters including the
returned one. -/
def stopFromWaitingSpec (d : Debouncer) : Prop :=
  (d.stop).1.stopped = true ∧
  (d.stop).1.timer = false ∧
  (d.stop).1.phase = .running ∧
  (d.stop).2.2.invoked = true ∧
  (d.stop).2.1 = .pending d.nextWaiter ∧
  (d.stop).1.completeDeferreds = d.completeDeferreds ++ [d.nextWaiter] ∧
  (((d.stop).1.step .actionComplete).2).fired = d.completeDeferreds ++ [d.nextWaiter]

/-- Behavior of atomicCreateState, by cases on the stored cell at
(objectid, name), with tbl1 the table after racing writers commit at the
hook point: a present non-null value is returned unchanged with the
callback not invoked; a present null is returned unchanged but the
callback is invoked (stored null is indistinguishable from absence); when
absent and no racer took the key, the callback's value is inserted and
returned; when absent and a racer took the key, the racer's value is
returned; whenever a value is returned it is exactly the value durably
stored at the key afterwards, and the unique-key invariant is
preserved. -/
def atomicCreateSpec (tbl : ObjectStateTbl) (objectid : Nat) (name : String)
    (createVal : Json) (intf : List (Nat × String × Json)) : Prop :=
  let tbl1 := interfereState tbl intf
  let r := atomicCreateState tbl objectid name createVal intf
  (∀ v, selectState tbl objectid name = some (.json v) → v.isNull = false →
    r = (.ok v, false, tbl)) ∧
  (selectState tbl objectid name = some (.json .null) →
    r = (.ok .null, true, tbl1)) ∧
  (selectState tbl objectid name = none → selectState tbl1 objectid name = none →
    r = (.ok createVal, true, tbl1 ++ [⟨objectid, name, .json createVal⟩])) ∧
  (selectState tbl objectid name = none →
    ∀ w, selectState tbl1 objectid name = some (.json w) →
      r = (.ok w, true, tbl1)) ∧
  (∀ v b tbl', r = (.ok v, b, tbl') →
    selectState tbl' objectid name = some (.json v)) ∧
  (stateWf tbl = true → ∀ v b tbl', r = (.ok v, b, tbl') → stateWf tbl' = true)

/-! ## Theorems -/

/-- C10: a trigger on a stopped Debouncer returns at once and leaves the
whole state (phase, timer, waiters, everything) unchanged, with no
observable effect, in every phase. -/
theorem debouncer_call_stopped_frame (d : Debouncer) (h : d.stopped = true) :
    d.call = (d, noEffects) := by
  simp [Debouncer.call, h]

/-- Witness for debouncer_call_stopped_frame at a concrete stopped
Debouncer. -/
theorem debouncer_call_stopped_frame_witness :
    dStopped0.stopped = true ∧ dStopped0.call = (dStopped0, noEffects) :=
  ⟨rfl, debouncer_call_stopped_frame dStopped0 rfl⟩

/-- C1 counterexample: on completion in PH_RUNNING_QUEUED with the
Debouncer not stopped, the action is not re-invoked immediately, the
registered completion waiter is released at once, and the machine returns
to PH_WAITING — refuting the claimed unconditional immediate re-invocation
with waiters withheld. -/
theorem debouncer_retry_queued_counterexample :
    ¬ ((dQueued.retry).2.invoked = true ∧ (dQueued.retry).2.fired = [] ∧
       (dQueued.retry).1.phase ≠ Phase.waiting) := by
  decide

/-- C1 amended: when the action completes in PH_RUNNING_QUEUED, the code
re-invokes immediately without releasing waiters only when the Debouncer
is stopped; when it is not stopped, all completion waiters registered so
far are released and a fresh full-wait debounce cycle starts (PH_WAITING
with a new timer). -/
theorem debouncer_retry_queued_amended (d : Debouncer)
    (h : d.phase = Phase.runningQueued) : retryQueuedSpec d := by
  cases d with
  | mk w u ph tm st cd nw =>
    cases h
    refine ⟨fun hs => ?_, fun hs => ?_⟩ <;> cases hs <;>
      simp [retryQueuedSpec, Debouncer.retry, Debouncer.invoke, Debouncer.call, noEffects]

/-- Witness for debouncer_retry_queued_amended at a concrete queued
Debouncer. -/
theorem debouncer_retry_queued_amended_witness :
    dQueued.phase = Phase.runningQueued ∧ retryQueuedSpec dQueued :=
  ⟨rfl, debouncer_retry_queued_amended dQueued rfl⟩

/-- C9: stop() in PH_WAITING sets stopped, cancels the timer and forces an
immediate invocation (PH_RUNNING), returning a pending deferred that is
appended to the completion waiters; no event other than the wrapped
function's completion ever fires a waiter, and the completion of the
forced run fires all registered waiters including the returned one;
stop() in PH_IDLE returns an already-resolved deferred. -/
theorem debouncer_stop_waiting_flush (d : Debouncer) (h : d.phase = Phase.waiting) :
    stopFromWaitingSpec d ∧
    (∀ d2 : Debouncer, ∀ e, e ≠ DebEvent.actionComplete → ((d2.step e).2).fired = []) ∧
    (∀ d0 : Debouncer, d0.phase = Phase.idle →
      d0.stop = ({ d0 with stopped := true }, .resolved, noEffects)) := by
  refine ⟨?_, ?_, ?_⟩
  · cases d with
    | mk w u ph tm st cd nw =>
      cases h
      exact ⟨rfl, rfl, rfl, rfl, rfl, rfl, rfl⟩
  · intro d2 e he
    cases d2 with
    | mk w u ph tm st cd nw =>
      cases e with
      | trigger => cases st <;> cases ph <;> rfl
      | timerFire => cases tm <;> cases ph <;> rfl
      | actionComplete => exact absurd rfl he
      | stopEv => cases ph <;> rfl
      | startEv => rfl
  · intro d0 h0
    cases d0 with
    | mk w u ph tm st cd nw =>
      cases h0
      rfl

/-- Witness for debouncer_stop_waiting_flush at a concrete waiting
Debouncer. -/
theorem debouncer_stop_waiting_flush_witness :
    dWaiting.phase = Phase.waiting ∧
    (stopFromWaitingSpec dWaiting ∧
      (∀ d2 : Debouncer, ∀ e, e ≠ DebEvent.actionComplete → ((d2.step e).2).fired = []) ∧
      (∀ d0 : Debouncer, d0.phase = Phase.idle →
        d0.stop = ({ d0 with stopped := true }, .resolved, noEffects))) :=
  ⟨rfl, debouncer_stop_waiting_flush dWaiting rfl⟩

/-- Skipped fire: with onlyIfChanged, a matching recorded policy, an empty
pending bookmark and not the first build, the fire evaluation changes
nothing. -/
theorem startBuild_skip (cfg : NightlyConfig) (hc : cfg.onlyIfChanged = true)
    (st : NightlyState) (h1 : st.pending = []) (h2 : st.isFirstBuild = false)
    (h3 : st.lastOnlyIfChanged = some true) (now : Nat) :
    startBuild cfg st now = st := by
  simp [startBuild, h1, h2, h3, hc]

/-- The scheduling loop of an onlyIfChanged scheduler that has a matching
recorded policy, no pending change and is past its first build never
emits a build, for any fuel, horizon and time. -/
theorem runSched_skip (cfg : NightlyConfig) (hc : cfg.onlyIfChanged = true) :
    ∀ fuel horizon now st, st.pending = [] → st.isFirstBuild = false →
      st.lastOnlyIfChanged = some true →
      (runSched cfg horizon fuel st now []).builds = st.builds := by
  intro fuel
  induction fuel with
  | zero => intro horizon now st h1 h2 h3; rfl
  | succ n ih =>
    intro horizon now st h1 h2 h3
    have hstep : runSched cfg horizon (n + 1) st now [] =
        (match nextFire cfg now with
         | none => st
         | some t =>
           if horizon ≤ t then st
           else runSched cfg horizon n (actuate cfg st t) t []) := rfl
    rw [hstep]
    cases hnf : nextFire cfg now with
    | none => rfl
    | some t =>
      by_cases hh : horizon ≤ t
      · simp [hh]
      · simp only [if_neg hh]
        have hact : actuate cfg st t = { st with lastBuild := some t } := by
          unfold actuate
          exact startBuild_skip cfg hc _ (by simp [h1]) (by simp [h2]) (by simp [h3]) t
        rw [hact]
        exact (ih horizon t _ (by simp [h1]) (by simp [h2]) (by simp [h3])).trans rfl

/-- C4: with onlyIfChanged and no change ever observed, an existing
scheduler (a recorded last_build and a matching recorded
last_only_if_changed = true) never emits a build, for any number of
calendar ticks (any fuel, origin and horizon); activation itself never
emits a build; and the brand-new scheduler of the cited test emits nothing
at activation and exactly one build at the first calendar tick
(origin + 300), not at the origin. -/
theorem nightly_onlyIfChanged_no_changes_never_fires (cfg : NightlyConfig)
    (hc : cfg.onlyIfChanged = true) :
    (∀ fuel origin horizon lb b0,
      (simulate cfg
        { lastBuild := some lb, lastOnlyIfChanged := some true, pending := [],
          isFirstBuild := b0, builds := [] } origin horizon fuel []).builds = []) ∧
    (∀ st, (activate cfg st).builds = st.builds) ∧
    (simulate cfgOIC stNew originT (originT + 1800) 20 []).builds =
      [(originT + 300, BuildPayload.withDefaults)] := by
  refine ⟨?_, ?_, rfl⟩
  · intro fuel origin horizon lb b0
    have hact : activate cfg
        { lastBuild := some lb, lastOnlyIfChanged := some true, pending := [],
          isFirstBuild := b0, builds := [] } =
        { lastBuild := some lb, lastOnlyIfChanged := some true, pending := [],
          isFirstBuild := false, builds := [] } := by
      simp [activate, hc]
    unfold simulate
    rw [hact]
    exact runSched_skip cfg hc fuel horizon origin _ rfl rfl rfl
  · intro st
    simp [activate, hc]

/-- Witness for nightly_onlyIfChanged_no_changes_never_fires at the
configuration of the cited tests. -/
theorem nightly_onlyIfChanged_no_changes_never_fires_witness :
    cfgOIC.onlyIfChanged = true ∧
    ((∀ fuel origin horizon lb b0,
      (simulate cfgOIC
        { lastBuild := some lb, lastOnlyIfChanged := some true, pending := [],
          isFirstBuild := b0, builds := [] } origin horizon fuel []).builds = []) ∧
    (∀ st, (activate cfgOIC st).builds = st.builds) ∧
    (simulate cfgOIC stNew originT (originT + 1800) 20 []).builds =
      [(originT + 300, BuildPayload.withDefaults)]) :=
  ⟨rfl, nightly_onlyIfChanged_no_changes_never_fires cfgOIC rfl⟩

/-- C2 counterexample: for an existing scheduler with no observed changes
whose last_only_if_changed bookmark was never recorded (unset), the
thirty-minute run of the cited test emits no build at all — refuting the
claimed catch-up build in the unset case (the unset bookmark is read with
default true and thus matches the policy). -/
theorem nightly_unset_policy_counterexample :
    (simulate cfgOIC (stExisting none) originT (originT + 1800) 20 []).builds = [] := rfl

/-- C2 amended: a catch-up build is emitted exactly once when
last_only_if_changed was recorded as false (non-matching); when the
bookmark was never recorded it is read with default true, matches the
policy, and no build is emitted. -/
theorem nightly_policy_catchup_amended :
    (simulate cfgOIC (stExisting (some false)) originT (originT + 1800) 20 []).builds =
      [(originT + 300, BuildPayload.withDefaults)] ∧
    (simulate cfgOIC (stExisting none) originT (originT + 1800) 20 []).builds = [] :=
  ⟨rfl, rfl⟩

/-- C5: with onlyIfChanged and the mixed change feed (on-branch
unimportant, off-branch important, on-branch important, on-branch
unimportant, off-branch important), exactly one build is emitted and its
changeid list is exactly the on-branch changes in arrival order
[500, 502, 503], with no off-branch change. -/
theorem nightly_mixed_changes_arrival_order :
    (simulate cfgOIC (stExisting (some true)) originT (originT + 1800) 20
      mixedEvents).builds =
      [(originT + 1500, BuildPayload.forChanges [500, 502, 503])] := rfl

/-- C6: with the calendar spec minute=[10,20,21,40,50,51] and an
hour-aligned origin, the engine fires exactly at offsets 600, 1200 and
1260 seconds within the first thirty minutes, and the persisted
last_build bookmark afterwards equals the last fire time, origin + 1260. -/
theorem nightly_calendar_fire_times :
    (simulate cfgSimple stSimpleInit originT (originT + 1800) 20 []).builds =
      [(originT + 600, BuildPayload.withDefaults),
       (originT + 1200, BuildPayload.withDefaults),
       (originT + 1260, BuildPayload.withDefaults)] ∧
    (simulate cfgSimple stSimpleInit originT (originT + 1800) 20 []).lastBuild =
      some (originT + 1260) :=
  ⟨rfl, rfl⟩

/-- C8: with no stored row, get with no default fails with NotFound, and
get with a default returns the default with the table unchanged (no
write); and whenever a row exists, the result of get does not depend on
the supplied default at all (the default is never returned in place of
the row's content). -/
theorem thdGetState_no_row_default (tbl : ObjectStateTbl) (objectid : Nat)
    (name : String) (habs : selectState tbl objectid name = none) :
    getState tbl objectid name none = (.error .notFound, tbl) ∧
    (∀ d, getState tbl objectid name (some d) = (.ok d, tbl)) ∧
    (∀ tbl2 : ObjectStateTbl, ∀ cell d d', selectState tbl2 objectid name = some cell →
      thdGetState tbl2 objectid name d = thdGetState tbl2 objectid name d') := by
  refine ⟨?_, ?_, ?_⟩
  · simp [getState, thdGetState, habs]
  · intro d; simp [getState, thdGetState, habs]
  · intro tbl2 cell d d' hrow
    simp [thdGetState, hrow]

/-- Witness for thdGetState_no_row_default at the empty table. -/
theorem thdGetState_no_row_default_witness :
    selectState [] 1 "x" = none ∧
    (getState [] 1 "x" none = (.error .notFound, ([] : ObjectStateTbl)) ∧
    (∀ d, getState [] 1 "x" (some d) = (.ok d, ([] : ObjectStateTbl))) ∧
    (∀ tbl2 : ObjectStateTbl, ∀ cell d d', selectState tbl2 1 "x" = some cell →
      thdGetState tbl2 1 "x" d = thdGetState tbl2 1 "x" d')) :=
  ⟨rfl, thdGetState_no_row_default [] 1 "x" rfl⟩

/-- A present row is still found after rows are appended on the right. -/
theorem selectState_append_some (tbl ext : ObjectStateTbl) (objectid : Nat)
    (name : String) (c : Cell) (h : selectState tbl objectid name = some c) :
    selectState (tbl ++ ext) objectid name = some c := by
  unfold selectState at h ⊢
  rw [List.find?_append]
  cases hf : List.find? (stateKeyMatch objectid name) tbl with
  | none => rw [hf] at h; simp at h
  | some r => rw [hf] at h; exact h

/-- A present row is still found, with the same cell, after racing
writers commit their insert-if-absent writes. -/
theorem selectState_interfere_some (ws : List (Nat × String × Json)) :
    ∀ tbl objectid name c, selectState tbl objectid name = some c →
      selectState (interfereState tbl ws) objectid name = some c := by
  induction ws with
  | nil => intro tbl oid nm c h; exact h
  | cons w ws ih =>
    intro tbl oid nm c h
    simp only [interfereState]
    cases ha : tbl.any (stateKeyMatch w.1 w.2.1) with
    | true =>
      simp only [insertState, ha, if_true]
      exact ih tbl oid nm c h
    | false =>
      simp only [insertState, ha, Bool.false_eq_true, if_false]
      exact ih _ oid nm c (selectState_append_some tbl _ oid nm c h)

/-- When every cell selectable at a key is valid JSON (in particular when
the key is absent), the same holds after racing writers commit, since a
racing writer only ever commits a JSON value. -/
theorem selectState_interfere_json (ws : List (Nat × String × Json)) :
    ∀ tbl objectid name,
      (∀ c, selectState tbl objectid name = some c → ∃ v, c = .json v) →
      ∀ c, selectState (interfereState tbl ws) objectid name = some c → ∃ v, c = .json v := by
  induction ws with
  | nil => intro tbl oid nm h; exact h
  | cons w ws ih =>
    intro tbl oid nm h
    simp only [interfereState]
    apply ih
    intro c hc
    cases ha : tbl.any (stateKeyMatch w.1 w.2.1) with
    | true =>
      simp only [insertState, ha, if_true] at hc
      exact h c hc
    | false =>
      simp only [insertState, ha, Bool.false_eq_true, if_false] at hc
      unfold selectState at hc
      rw [List.find?_append] at hc
      cases hf : List.find? (stateKeyMatch oid nm) tbl with
      | some r =>
        rw [hf] at hc
        refine h c ?_
        unfold selectState
        rw [hf]
        exact hc
      | none =>
        rw [hf] at hc
        cases hm : stateKeyMatch oid nm ⟨w.1, w.2.1, .json w.2.2⟩ with
        | true =>
          simp [List.find?, hm] at hc
          exact ⟨w.2.2, hc.symm⟩
        | false =>
          simp [List.find?, hm] at hc

/-- Appending a row whose key is not yet present preserves the unique-key
invariant. -/
theorem stateWf_append (r : StateRow) :
    ∀ tbl, stateWf tbl = true → tbl.any (stateKeyMatch r.objectid r.name) = false →
      stateWf (tbl ++ [r]) = true := by
  intro tbl
  induction tbl with
  | nil => intro _ _; simp [stateWf]
  | cons s ss ih =>
    intro hw ha
    simp only [stateWf, Bool.and_eq_true, Bool.not_eq_true'] at hw
    simp only [List.any_cons, Bool.or_eq_false_iff] at ha
    rw [List.cons_append]
    simp only [stateWf, Bool.and_eq_true, Bool.not_eq_true']
    refine ⟨?_, ih hw.2 ha.2⟩
    simp only [List.any_append, Bool.or_eq_false_iff]
    refine ⟨hw.1, ?_⟩
    simp only [List.any_cons, List.any_nil, Bool.or_false]
    have h1 := ha.1
    simp only [stateKeyMatch, Bool.and_eq_false_iff, beq_eq_false_iff_ne] at h1 ⊢
    cases h1 with
    | inl h => exact .inl (fun he => h he.symm)
    | inr h => exact .inr (fun he => h he.symm)

/-- Racing insert-if-absent writers preserve the unique-key invariant. -/
theorem stateWf_interfere (ws : List (Nat × String × Json)) :
    ∀ tbl, stateWf tbl = true → stateWf (interfereState tbl ws) = true := by
  induction ws with
  | nil => intro tbl h; exact h
  | cons w ws ih =>
    intro tbl h
    simp only [interfereState]
    cases ha : tbl.any (stateKeyMatch w.1 w.2.1) with
    | true =>
      simp only [insertState, ha, if_true]
      exact ih tbl h
    | false =>
      simp only [insertState, ha, Bool.false_eq_true, if_false]
      exact ih _ (stateWf_append _ tbl h ha)

/-- A value is the Python None exactly when it is the JSON null. -/
theorem Json.isNull_iff (v : Json) : v.isNull = true ↔ v = .null := by
  cases v <;> simp [Json.isNull]

/-- A selectable row witnesses the key being present. -/
theorem selectState_any (tbl : ObjectStateTbl) (objectid : Nat) (name : String)
    (c : Cell) (h : selectState tbl objectid name = some c) :
    tbl.any (stateKeyMatch objectid name) = true := by
  unfold selectState at h
  cases hf : List.find? (stateKeyMatch objectid name) tbl with
  | none => rw [hf] at h; simp at h
  | some r => exact List.any_eq_true.mpr (List.find?_isSome.mp (by rw [hf]; rfl))

/-- An absent key is not matched by any row. -/
theorem any_false_of_selectState_none (tbl : ObjectStateTbl) (objectid : Nat)
    (name : String) (h : selectState tbl objectid name = none) :
    tbl.any (stateKeyMatch objectid name) = false := by
  unfold selectState at h
  cases hf : List.find? (stateKeyMatch objectid name) tbl with
  | some r => rw [hf] at h; simp at h
  | none =>
    cases hha : tbl.any (stateKeyMatch objectid name) with
    | false => rfl
    | true =>
      obtain ⟨x, hx, hp⟩ := List.any_eq_true.mp hha
      exact absurd hp (List.find?_eq_none.mp hf x hx)

/-- Inserting a row for an absent key makes exactly that row selectable. -/
theorem selectState_append_self (tbl : ObjectStateTbl) (objectid : Nat) (name : String)
    (c : Cell) (h : selectState tbl objectid name = none) :
    selectState (tbl ++ [⟨objectid, name, c⟩]) objectid name = some c := by
  unfold selectState at h ⊢
  rw [List.find?_append]
  cases hf : List.find? (stateKeyMatch objectid name) tbl with
  | some r => rw [hf] at h; simp at h
  | none => simp [List.find?, stateKeyMatch]

/-- C3 counterexample: with a stored value present that happens to be the
JSON null, atomicCreateState does invoke its creation callback (the
middle component true) even though a value is present, because the read
with default None cannot distinguish a stored null from absence; the
stored value is nevertheless what is returned and the table is
unchanged. -/
theorem atomicCreateState_null_counterexample :
    selectState tblNull 1 "x" = some (.json .null) ∧
    atomicCreateState tblNull 1 "x" (.num 5) [] = (.ok .null, true, tblNull) :=
  ⟨rfl, rfl⟩

/-- C3 amended: atomicCreateState returns a present non-null value
unchanged without invoking the creation callback; a present null is
returned unchanged but the callback is invoked and its result discarded;
an absent value is created and inserted, and if a racing writer won the
insert the racer's re-read value is returned instead; every returned
value is exactly the value durably stored at the key afterwards, and the
unique-key invariant is preserved. -/
theorem atomicCreateState_amended (tbl : ObjectStateTbl) (objectid : Nat)
    (name : String) (createVal : Json) (intf : List (Nat × String × Json))
    (hwf : stateWf tbl = true) :
    atomicCreateSpec tbl objectid name createVal intf := by
  have hc1 : ∀ v, selectState tbl objectid name = some (.json v) → v.isNull = false →
      atomicCreateState tbl objectid name createVal intf = (.ok v, false, tbl) := by
    intro v hsel hnn
    simp [atomicCreateState, thdGetState, hsel, hnn]
  have hc2 : selectState tbl objectid name = some (.json .null) →
      atomicCreateState tbl objectid name createVal intf =
        (.ok .null, true, interfereState tbl intf) := by
    intro hsel
    have hsel1 := selectState_interfere_some intf tbl objectid name _ hsel
    have hany := selectState_any _ objectid name _ hsel1
    simp [atomicCreateState, thdGetState, hsel, hsel1, insertState, hany, Json.isNull]
  have hc3 : selectState tbl objectid name = none →
      selectState (interfereState tbl intf) objectid name = none →
      atomicCreateState tbl objectid name createVal intf =
        (.ok createVal, true,
          interfereState tbl intf ++ [⟨objectid, name, .json createVal⟩]) := by
    intro hsel hsel1
    have hany := any_false_of_selectState_none _ objectid name hsel1
    simp [atomicCreateState, thdGetState, hsel, insertState, hany, Json.isNull]
  have hc4 : selectState tbl objectid name = none →
      ∀ w, selectState (interfereState tbl intf) objectid name = some (.json w) →
      atomicCreateState tbl objectid name createVal intf =
        (.ok w, true, interfereState tbl intf) := by
    intro hsel w hsel1
    have hany := selectState_any _ objectid name _ hsel1
    simp [atomicCreateState, thdGetState, hsel, hsel1, insertState, hany, Json.isNull]
  have hjson : ∀ c, selectState tbl objectid name = none →
      selectState (interfereState tbl intf) objectid name = some c → ∃ v, c = .json v := by
    intro c hsel hc
    exact selectState_interfere_json intf tbl objectid name
      (fun c' hc' => absurd hc' (by rw [hsel]; simp)) c hc
  refine ⟨hc1, hc2, hc3, hc4, ?_, ?_⟩
  · intro v b tbl' hr
    cases hs : selectState tbl objectid name with
    | some c =>
      cases c with
      | corrupt =>
        rw [show atomicCreateState tbl objectid name createVal intf =
            (.error .decodeError, false, tbl) by
          simp [atomicCreateState, thdGetState, hs]] at hr
        simp at hr
      | json v0 =>
        cases hnn : v0.isNull with
        | false =>
          rw [hc1 v0 hs hnn] at hr
          simp only [Prod.mk.injEq, Except.ok.injEq] at hr
          obtain ⟨hv, hb, ht⟩ := hr
          rw [← ht, ← hv]
          exact hs
        | true =>
          have hv0 : v0 = .null := (Json.isNull_iff v0).mp hnn
          subst hv0
          rw [hc2 hs] at hr
          simp only [Prod.mk.injEq, Except.ok.injEq] at hr
          obtain ⟨hv, hb, ht⟩ := hr
          rw [← ht, ← hv]
          exact selectState_interfere_some intf tbl objectid name _ hs
    | none =>
      cases hs1 : selectState (interfereState tbl intf) objectid name with
      | none =>
        rw [hc3 hs hs1] at hr
        simp only [Prod.mk.injEq, Except.ok.injEq] at hr
        obtain ⟨hv, hb, ht⟩ := hr
        rw [← ht, ← hv]
        exact selectState_append_self _ objectid name _ hs1
      | some c =>
        obtain ⟨w, hw⟩ := hjson c hs hs1
        subst hw
        rw [hc4 hs w hs1] at hr
        simp only [Prod.mk.injEq, Except.ok.injEq] at hr
        obtain ⟨hv, hb, ht⟩ := hr
        rw [← ht, ← hv]
        exact hs1
  · intro _ v b tbl' hr
    cases hs : selectState tbl objectid name with
    | some c =>
      cases c with
      | corrupt =>
        rw [show atomicCreateState tbl objectid name createVal intf =
            (.error .decodeError, false, tbl) by
          simp [atomicCreateState, thdGetState, hs]] at hr
        simp at hr
      | json v0 =>
        cases hnn : v0.isNull with
        | false =>
          rw [hc1 v0 hs hnn] at hr
          simp only [Prod.mk.injEq, Except.ok.injEq] at hr
          rw [← hr.2.2]
          exact hwf
        | true =>
          have hv0 : v0 = .null := (Json.isNull_iff v0).mp hnn
          subst hv0
          rw [hc2 hs] at hr
          simp only [Prod.mk.injEq, Except.ok.injEq] at hr
          rw [← hr.2.2]
          exact stateWf_interfere intf tbl hwf
    | none =>
      cases hs1 : selectState (interfereState tbl intf) objectid name with
      | none =>
        rw [hc3 hs hs1] at hr
        simp only [Prod.mk.injEq, Except.ok.injEq] at hr
        rw [← hr.2.2]
        exact stateWf_append _ _ (stateWf_interfere intf tbl hwf)
          (any_false_of_selectState_none _ objectid name hs1)
      | some c =>
        obtain ⟨w, hw⟩ := hjson c hs hs1
        subst hw
        rw [hc4 hs w hs1] at hr
        simp only [Prod.mk.injEq, Except.ok.injEq] at hr
        rw [← hr.2.2]
        exact stateWf_interfere intf tbl hwf

/-- Witness for atomicCreateState_amended at an empty table with a racing
writer taking the key: the racer wins and its value is returned. -/
theorem atomicCreateState_amended_witness :
    stateWf [] = true ∧ atomicCreateSpec [] 1 "x" (.num 7) [(1, "x", .str "winner")] :=
  ⟨rfl, atomicCreateState_amended [] 1 "x" (.num 7) [(1, "x", .str "winner")] rfl⟩

/-- A resolvable id witnesses the key being present in the objects
table. -/
theorem selectObj_any (db : ObjectsTbl) (name class_name : String) (id : Nat)
    (h : selectObj db name class_name = some id) :
    db.rows.any (objKeyMatch name class_name) = true := by
  unfold selectObj at h
  cases hf : List.find? (objKeyMatch name class_name) db.rows with
  | none => rw [hf] at h; simp at h
  | some r => exact List.any_eq_true.mpr (List.find?_isSome.mp (by rw [hf]; rfl))

/-- Inserting a row for an absent (name, class_name) key makes exactly
that row's id resolvable. -/
theorem selectObj_append_self (rows : List ObjRow) (i m : Nat) (name class_name : String)
    (h : rows.any (objKeyMatch name class_name) = false) :
    selectObj ⟨rows ++ [⟨i, name, class_name⟩], m⟩ name class_name = some i := by
  unfold selectObj
  have hf : List.find? (objKeyMatch name class_name) rows = none := by
    rw [List.find?_eq_none]
    intro x hx hp
    have hc := List.any_eq_true.mpr ⟨x, hx, hp⟩
    rw [h] at hc
    simp at hc
  show (List.find? (objKeyMatch name class_name)
    (rows ++ [⟨i, name, class_name⟩])).map (·.id) = some i
  rw [List.find?_append, hf]
  simp [List.find?, objKeyMatch]

/-- C7: for every starting table and every interference by racing
resolvers at the hook point, thdGetObjectId returns normally (never an
error), the returned id is exactly the id durably associated with
(name, class_name) in the resulting table, and every later call — by this
or any other caller, under any further interference — returns the very
same id without modifying the table. -/
theorem thdGetObjectId_race_consistent (db : ObjectsTbl) (name class_name : String)
    (intf : List (String × String)) :
    ∃ id db', thdGetObjectId db name class_name intf = .ok (id, db') ∧
      selectObj db' name class_name = some id ∧
      ∀ intf2, thdGetObjectId db' name class_name intf2 = .ok (id, db') := by
  cases h1 : selectObj db name class_name with
  | some id =>
    refine ⟨id, db, ?_, h1, fun intf2 => ?_⟩ <;> simp [thdGetObjectId, h1]
  | none =>
    cases h2 : insertObj (interfereObj db intf) name class_name with
    | ok r =>
      obtain ⟨id, db2⟩ := r
      have ha : (interfereObj db intf).rows.any (objKeyMatch name class_name) = false := by
        cases ha : (interfereObj db intf).rows.any (objKeyMatch name class_name) with
        | false => rfl
        | true => simp [insertObj, ha] at h2
      simp only [insertObj, ha, Bool.false_eq_true, if_false, Except.ok.injEq,
        Prod.mk.injEq] at h2
      refine ⟨id, db2, ?_, ?_, fun intf2 => ?_⟩
      · simp only [thdGetObjectId, h1]
        rw [show insertObj (interfereObj db intf) name class_name =
            .ok (id, db2) by
          simp only [insertObj, ha, Bool.false_eq_true, if_false, Except.ok.injEq,
            Prod.mk.injEq]
          exact h2]
      · rw [← h2.2, ← h2.1]
        exact selectObj_append_self _ _ _ _ _ ha
      · have h3 : selectObj db2 name class_name = some id := by
          rw [← h2.2, ← h2.1]
          exact selectObj_append_self _ _ _ _ _ ha
        simp [thdGetObjectId, h3]
    | error e =>
      have ha : (interfereObj db intf).rows.any (objKeyMatch name class_name) = true := by
        cases ha : (interfereObj db intf).rows.any (objKeyMatch name class_name) with
        | true => rfl
        | false => simp [insertObj, ha] at h2
      have hex : ∃ id, selectObj (interfereObj db intf) name class_name = some id := by
        obtain ⟨x, hx, hp⟩ := List.any_eq_true.mp ha
        have hsome : (List.find? (objKeyMatch name class_name)
            (interfereObj db intf).rows).isSome := List.find?_isSome.mpr ⟨x, hx, hp⟩
        cases hf : List.find? (objKeyMatch name class_name) (interfereObj db intf).rows with
        | none => rw [hf] at hsome; simp at hsome
        | some r => exact ⟨r.id, by unfold selectObj; rw [hf]; rfl⟩
      obtain ⟨id, h3⟩ := hex
      refine ⟨id, interfereObj db intf, ?_, h3, fun intf2 => ?_⟩
      · simp only [thdGetObjectId, h1]
        rw [h2]
        simp [h3]
      · simp [thdGetObjectId, h3]
